import Mathlib

/-!
Verification development for the msync metadata synchronizer.

The definitions below are a shallow embedding of the repository's core:
the rating-scale conversions and tag reading in `electron/metadata.ts`,
the local and remote directory scans (`electron/metadata.ts` `scanFolder`,
`electron/adb.ts` `AdbManager.scanFolder`/`listDirectory`), the match
engine and sync orchestration in `src/App.tsx` (`findMatches`,
`refreshBothSides`, `handleSync`), and the staging IPC handlers
(`update-android-metadata`, `sync-metadata`) in the electron main file.

JavaScript numbers are modelled as `ℚ` (every float is a rational);
`Math.round` is Mathlib's `round` (both are floor of x + 1/2, i.e. round
half toward positive infinity).  `Date` values are modelled as their
epoch-millisecond integer, `null`/`undefined` as `Option`.
-/

namespace Msync

/-! ## Rating conversions (`electron/metadata.ts`) -/

/-- `parseRating` from `electron/metadata.ts`:
`undefined`/`null` ↦ 0; `r ≤ 1` is treated as 0–1 normalized (`round (r*5)`);
`1 < r ≤ 5` as already canonical (`round r`); `r > 5` as a POPM byte
(`round (r/255*5)`). -/
def parseRating (rating : Option ℚ) : ℤ :=
  match rating with
  | none => 0
  | some r =>
    if r ≤ 1 then round (r * 5)
    else if r ≤ 5 then round r
    else round (r / 255 * 5)

/-- The fixed lookup table in `ratingTo255`. -/
def popmMapping : List ℕ := [0, 1, 64, 128, 196, 255]

/-- The clamped index `Math.min(5, Math.max(0, Math.round(rating)))`
computed by `ratingTo255`. -/
def ratingIndex (rating : ℚ) : ℤ :=
  min 5 (max 0 (round rating))

/-- `ratingTo255` from `electron/metadata.ts`: `mapping[min(5, max(0, round r))]`.
JavaScript array indexing yields `undefined` out of bounds, modelled by
`Option` via `List.get?`. -/
def ratingTo255 (rating : ℚ) : Option ℕ :=
  popmMapping.get? (ratingIndex rating).toNat

/-- The spec's round trip `canonicalToPopm (popmToCanonical (canonicalToPopm r))`,
with `canonicalToPopm = ratingTo255` and `popmToCanonical = parseRating`. -/
def popmRoundTrip (r : ℚ) : Option ℕ :=
  (ratingTo255 r).bind fun b => ratingTo255 ((parseRating (some (b : ℚ)) : ℤ) : ℚ)

/-! Helper lemmas to evaluate `round` on concrete rationals (the kernel does
not reduce Mathlib's `ℚ` instances, so concrete values are established by
`norm_num` through these). -/

theorem round_eq_of {q : ℚ} {z : ℤ} (h1 : (z : ℚ) ≤ q + 1 / 2) (h2 : q + 1 / 2 < z + 1) :
    round q = z := by
  rw [round_eq]
  exact Int.floor_eq_iff.mpr ⟨h1, h2⟩

theorem ratingTo255_eval {q : ℚ} {z : ℤ} (hz : round q = z) :
    ratingTo255 q = popmMapping.get? (min 5 (max 0 z)).toNat := by
  simp [ratingTo255, ratingIndex, hz]

/-! ## Path helpers (Node `path.basename` / `path.extname`, POSIX separators) -/

/-- JavaScript `toLowerCase()` for the ASCII strings the scanner compares
(per-character lowering; `String.toLower` itself is not kernel-reducible). -/
def strToLower (s : String) : String :=
  String.mk (s.data.map Char.toLower)

/-- Node `path.basename(p)`: trailing separators stripped, then the last
path segment. -/
def basename (p : String) : String :=
  let cs := (p.toList.reverse.dropWhile (fun c => c = '/')).reverse
  String.mk ((cs.reverse.takeWhile (fun c => c ≠ '/')).reverse)

/-- Node `path.extname(p)`: from the last `.` of the basename to the end;
empty when there is no dot or the only dot starts the name (hidden file). -/
def extname (p : String) : String :=
  let b := (basename p).toList
  let revTail := b.reverse.takeWhile (fun c => c ≠ '.')
  if revTail.length = b.length then ""
  else if revTail.length + 1 = b.length then ""
  else String.mk ('.' :: revTail.reverse)

/-- `path.basename(p, path.extname(p))` as used by `readMetadata`: the
basename with its extension suffix removed. -/
def basenameNoExt (p : String) : String :=
  let b := basename p
  let e := extname p
  if e ≠ "" && e.data.isSuffixOf b.data && b ≠ e then
    String.mk (b.data.take (b.data.length - e.data.length))
  else b

/-- `path.join` / `path.posix.join` for the simple two-segment case the
scanners use. -/
def joinPath (a b : String) : String :=
  if a = "" then b else a ++ "/" ++ b

/-! ## Data model (`src/types/index.ts`) -/

/-- `AudioFormat` from `src/types/index.ts`. -/
inductive AudioFormat
  | mp3 | flac | m4a | ogg | wav | aiff | wma
  deriving DecidableEq, Repr

/-- `MusicFile` from `src/types/index.ts`; `Date` values are epoch
milliseconds, `null` is `none`. -/
structure MusicFile where
  id : String
  path : String
  filename : String
  title : String
  artist : String
  album : String
  rating : ℤ
  lastMetadataUpdate : Option ℤ
  format : AudioFormat
  size : ℕ
  deriving DecidableEq, Repr

/-- `SUPPORTED_EXTENSIONS` from `electron/metadata.ts` / `electron/adb.ts`. -/
def SUPPORTED_EXTENSIONS : List String :=
  [".mp3", ".flac", ".m4a", ".ogg", ".wav", ".aiff", ".wma"]

/-- `getAudioFormat` from `electron/metadata.ts`. -/
def getAudioFormat (filePath : String) : Option AudioFormat :=
  match strToLower (extname filePath) with
  | ".mp3" => some .mp3
  | ".flac" => some .flac
  | ".m4a" => some .m4a
  | ".ogg" => some .ogg
  | ".wav" => some .wav
  | ".aiff" => some .aiff
  | ".wma" => some .wma
  | _ => none

/-- `isSupportedAudio` from `electron/metadata.ts` / `electron/adb.ts`. -/
def isSupportedAudio (filePath : String) : Bool :=
  SUPPORTED_EXTENSIONS.contains (strToLower (extname filePath))

/-! ## Tag reading (`readMetadata` in `electron/metadata.ts`) -/

/-- Filesystem stat data `readMetadata` uses. -/
structure Stats where
  mtimeMs : ℤ
  size : ℕ
  deriving DecidableEq, Repr

/-- The fields `readMetadata` consumes from `music-metadata`'s `common`
object. `title`/`artist`/`album` may be absent; each element of the
`rating` array may itself carry an absent rating value. -/
structure ParsedCommon where
  title : Option String
  artist : Option String
  album : Option String
  rating : List (Option ℚ)
  deriving DecidableEq, Repr

/-- JavaScript `x || fallback` for an optional string: an absent or empty
string falls back. -/
def jsOrString (x : Option String) (fallback : String) : String :=
  match x with
  | none => fallback
  | some s => if s = "" then fallback else s

/-- `readMetadata` from `electron/metadata.ts`.  `parsed` is the outcome of
`mm.parseFile`: `some common` on success, `none` when parsing threw (the
catch produces the stat-derived fallback record).  An unrecognized
extension throws before the try block. -/
def readMetadata (filePath : String) (stats : Stats) (parsed : Option ParsedCommon) :
    Except String MusicFile :=
  match getAudioFormat filePath with
  | none => .error ("Unsupported audio format: " ++ filePath)
  | some format =>
    match parsed with
    | some common =>
      let rating : ℤ :=
        match common.rating with
        | [] => 0
        | r0 :: _ => parseRating r0
      .ok { id := filePath, path := filePath, filename := basename filePath,
            title := jsOrString common.title (basenameNoExt filePath),
            artist := jsOrString common.artist "",
            album := jsOrString common.album "",
            rating := rating,
            lastMetadataUpdate := some stats.mtimeMs,
            format := format, size := stats.size }
    | none =>
      .ok { id := filePath, path := filePath, filename := basename filePath,
            title := basenameNoExt filePath,
            artist := "", album := "", rating := 0,
            lastMetadataUpdate := some stats.mtimeMs,
            format := format, size := stats.size }

/-! ## Match engine (`findMatches` in `src/App.tsx`) -/

inductive Direction
  | toAndroid | toLocal | same
  deriving DecidableEq, Repr

structure SyncPair where
  localFile : MusicFile
  android : MusicFile
  direction : Direction
  deriving DecidableEq, Repr

/-- JS `Map.set`: replace in place when the key exists, else append. -/
def mapSet (m : List (String × MusicFile)) (k : String) (v : MusicFile) :
    List (String × MusicFile) :=
  if m.any (fun e => e.1 = k) then m.map (fun e => if e.1 = k then (k, v) else e)
  else m ++ [(k, v)]

/-- JS `Map.get`. -/
def mapGet (m : List (String × MusicFile)) (k : String) : Option MusicFile :=
  (m.find? (fun e => e.1 = k)).map (fun e => e.2)

/-- The `androidIndex` built by `findMatches`: files inserted in scan order,
keyed by lowercased filename. -/
def buildAndroidIndex (android : List MusicFile) : List (String × MusicFile) :=
  android.foldl (fun m f => mapSet m (strToLower f.filename) f) []

/-- JS `t?.getTime() || 0`. -/
def timeOrZero (t : Option ℤ) : ℤ := t.getD 0

/-- The direction computation inside `findMatches`. -/
def computeDirection (localTime androidTime : ℤ) : Direction :=
  if localTime > androidTime then .toAndroid
  else if androidTime > localTime then .toLocal
  else .same

/-- The body of `findMatches`' per-local-file loop: emit one pair when the
lowercased filename is in the android index. -/
def matchOne (androidIndex : List (String × MusicFile)) (lf : MusicFile) :
    Option SyncPair :=
  match mapGet androidIndex (strToLower lf.filename) with
  | none => none
  | some af =>
    some ⟨lf, af,
      computeDirection (timeOrZero lf.lastMetadataUpdate) (timeOrZero af.lastMetadataUpdate)⟩

/-- `findMatches(local, android)` from `src/App.tsx`. -/
def findMatches (localFiles android : List MusicFile) : List SyncPair :=
  localFiles.filterMap (matchOne (buildAndroidIndex android))

/-! ## Sync orchestration (`refreshBothSides` / `handleSync` in `src/App.tsx`) -/

/-- `SyncProgress` from `src/types/index.ts` (`status` is one of
`idle`, `syncing`, `complete`, `error`). -/
structure SyncProgress where
  current : ℕ
  total : ℕ
  currentFile : String
  status : String
  error : Option String
  deriving DecidableEq, Repr

/-- The environment of one `handleSync` invocation: whether a local folder
is configured, whether `deviceRef.current` is non-null, and the outcome
each side's scan would have if invoked. -/
structure SyncEnv where
  localPath : Option String
  device : Bool
  localScan : Except String (List MusicFile)
  androidScan : Except String (List MusicFile)

/-- `refreshBothSides` from `src/App.tsx`:
`freshLocalFiles`/`freshAndroidFiles` start as `[]` and a side is only
scanned when it is available (local path set / device connected); any scan
throw is caught, recorded as error progress, and `null` is returned.
Result: the fresh pair (or `none`) and the progress value left behind. -/
def refreshBothSides (env : SyncEnv) :
    Option (List MusicFile × List MusicFile) × SyncProgress :=
  let localResult : Except String (List MusicFile) :=
    match env.localPath with
    | some _ => env.localScan
    | none => .ok []
  match localResult with
  | .error e => (none, ⟨0, 0, "", "error", some e⟩)
  | .ok lf =>
    let androidResult : Except String (List MusicFile) :=
      if env.device then env.androidScan else .ok []
    match androidResult with
    | .error e => (none, ⟨0, 0, "", "error", some e⟩)
    | .ok af => (some (lf, af), ⟨0, 0, "Refreshing...", "syncing", none⟩)

/-- Outcome of the Applying loop of `handleSync`. `attempted` records the
pairs whose transfer was started, in order; `applied` those whose transfer
completed; `failed` the first failing pair and its error. -/
structure ApplyResult where
  attempted : List SyncPair
  applied : List SyncPair
  failed : Option (SyncPair × String)
  deriving DecidableEq, Repr

/-- The Applying loop of `handleSync`: pairs processed sequentially in
order; each transfer either succeeds or throws; on the first error the
function returns immediately, leaving the rest of the queue untouched. -/
def runApply (transfer : SyncPair → Except String Unit) :
    List SyncPair → ApplyResult
  | [] => ⟨[], [], none⟩
  | p :: rest =>
    match transfer p with
    | .error e => ⟨[p], [], some (p, e)⟩
    | .ok _ =>
      let r := runApply transfer rest
      ⟨p :: r.attempted, p :: r.applied, r.failed⟩

/-- How one `handleSync` invocation ends. -/
inductive RunResult
  | refreshFailed (progress : SyncProgress)
  | noMatches
  | allInSync (totalMatches : ℕ)
  | declined
  | applied (result : ApplyResult)
  deriving DecidableEq, Repr

/-- `handleSync` from `src/App.tsx`: refresh both sides (abort on `null`),
match, short-circuit on no matches / nothing to sync, gate on the confirm
dialog, then run the Applying loop over the pairs needing sync. -/
def handleSync (env : SyncEnv) (confirmed : Bool)
    (transfer : SyncPair → Except String Unit) : RunResult :=
  match refreshBothSides env with
  | (none, prog) => .refreshFailed prog
  | (some (lf, af), _) =>
    let matchList := findMatches lf af
    let toSync := matchList.filter (fun m => m.direction ≠ Direction.same)
    if matchList.length = 0 then .noMatches
    else if toSync.length = 0 then .allInSync matchList.length
    else if confirmed then .applied (runApply transfer toSync)
    else .declined

/-- The transfers a run attempted (only the Applying branch performs any). -/
def transfersAttempted : RunResult → List SyncPair
  | .applied r => r.attempted
  | _ => []

/-! ## Remote staging (`update-android-metadata` / `sync-metadata` IPC
handlers in the electron main file) -/

/-- The local filesystem as staging observes it: the set of paths present. -/
abbrev LocalFS := List String

def addFile (fs : LocalFS) (p : String) : LocalFS :=
  if fs.contains p then fs else fs ++ [p]

def removeFile (fs : LocalFS) (p : String) : LocalFS :=
  fs.filter (fun q => q ≠ p)

/-- Which steps of one staging sequence succeed in a given run. -/
structure StagingRun where
  pullOk : Bool
  writeOk : Bool
  pushOk : Bool
  deriving DecidableEq, Repr

/-- The `update-android-metadata` IPC handler (the `writeRemote` path):
`try { pull → temp; writeMetadata(temp); push; unlinkSync(temp) }
catch { try unlinkSync(temp) catch {}; throw }`, with the try/catch
control flow folded into the branches.  A failed pull is modelled as
leaving no temp file behind (the catch unlinks it regardless).
Returns the resulting filesystem and the thrown error, if any. -/
def updateAndroidMetadata (run : StagingRun) (fs : LocalFS) (tempPath : String) :
    LocalFS × Option String :=
  if !run.pullOk then (removeFile fs tempPath, some "pull failed")
  else
    let fs1 := addFile fs tempPath
    if !run.writeOk then (removeFile fs1 tempPath, some "write failed")
    else if !run.pushOk then (removeFile fs1 tempPath, some "push failed")
    else (removeFile fs1 tempPath, none)

/-- One per-pair transfer of the `sync-metadata` IPC handler
(local→android direction): pull the target to a temp path, write the
metadata into the temp, push it back.  Neither the success path nor the
catch (which only emits a progress event and rethrows) deletes the temp
file. -/
def syncMetadataTransfer (run : StagingRun) (fs : LocalFS) (tempPath : String) :
    LocalFS × Option String :=
  if !run.pullOk then (fs, some "pull failed")
  else
    let fs1 := addFile fs tempPath
    if !run.writeOk then (fs1, some "write failed")
    else if !run.pushOk then (fs1, some "push failed")
    else (fs1, none)

/-! ## Directory scans -/

/-- A directory tree on the local side.  A `dir`'s `accessible` flag says
whether `readdirSync` succeeds on it.  A `file`'s `rec` is the outcome of
`readMetadata` on it (`none`: the read threw and the per-file catch
swallowed it). -/
inductive FsNode
  | file (name : String) (rec : Option MusicFile)
  | dir (name : String) (accessible : Bool) (entries : List FsNode)

/-- The inner `scan(dir)` loop of `scanFolder` in `electron/metadata.ts`,
with `acc` the shared `files` array.  `readdirSync` on an inaccessible
subdirectory throws, and nothing catches it — the error propagates out of
the whole recursion.  Only the per-file `readMetadata` call is guarded. -/
def scanLocalEntries : String → List FsNode → List MusicFile →
    Except String (List MusicFile)
  | _, [], acc => .ok acc
  | dirPath, .file name rec :: rest, acc =>
    scanLocalEntries dirPath rest
      (if isSupportedAudio name then
        match rec with
        | some m => acc ++ [m]
        | none => acc
      else acc)
  | dirPath, .dir n a es :: rest, acc =>
    if a then
      match scanLocalEntries (joinPath dirPath n) es acc with
      | .error e => .error e
      | .ok acc2 => scanLocalEntries dirPath rest acc2
    else .error ("EACCES: " ++ joinPath dirPath n)

/-- `scanFolder(folderPath)` from `electron/metadata.ts`, applied to the
root directory node. -/
def scanFolderLocal (root : FsNode) : Except String (List MusicFile) :=
  match root with
  | .file _ _ => .error "ENOTDIR"
  | .dir name accessible entries =>
    if accessible then scanLocalEntries name entries []
    else .error ("EACCES: " ++ name)

/-- A directory tree on the remote side.  A `file`'s `pulled` is the
outcome of pulling it and reading its metadata (`none`: pull or read threw
and the catch built the fallback record); `size` is the listing's reported
size (already defaulted to 0 when absent). -/
inductive RemoteNode
  | file (name : String) (size : ℕ) (pulled : Option MusicFile)
  | dir (name : String) (accessible : Bool) (entries : List RemoteNode)

/-- The fallback record `AdbManager.scanFolder` builds when pulling or
reading one remote file fails. -/
def remoteFallback (entryPath name : String) (size : ℕ) (format : AudioFormat) :
    MusicFile :=
  { id := entryPath, path := entryPath, filename := name,
    title := basenameNoExt name, artist := "", album := "", rating := 0,
    lastMetadataUpdate := none, format := format, size := size }

/-- The entry loop of `AdbManager.scanFolder`.  A subdirectory is scanned
recursively; `listDirectory` catches its own listing error and returns
`[]`, so an inaccessible directory contributes nothing and no error
escapes. -/
def scanRemoteEntries : String → List RemoteNode → List MusicFile → List MusicFile
  | _, [], acc => acc
  | dirPath, .dir n a es :: rest, acc =>
    let sub := if a then scanRemoteEntries (joinPath dirPath n) es [] else []
    scanRemoteEntries dirPath rest (acc ++ sub)
  | dirPath, .file name size pulled :: rest, acc =>
    let entryPath := joinPath dirPath name
    if isSupportedAudio name then
      match pulled with
      | some m =>
        scanRemoteEntries dirPath rest (acc ++ [{ m with id := entryPath, path := entryPath }])
      | none =>
        match getAudioFormat name with
        | some fmt =>
          scanRemoteEntries dirPath rest (acc ++ [remoteFallback entryPath name size fmt])
        | none => scanRemoteEntries dirPath rest acc
    else scanRemoteEntries dirPath rest acc

/-- `AdbManager.scanFolder(folderPath)`: throws only when no device is
connected; an inaccessible directory — the root included — contributes an
empty entry list because `listDirectory` swallows the listing error. -/
def scanFolderRemote (device : Bool) (root : RemoteNode) :
    Except String (List MusicFile) :=
  if device then
    match root with
    | .file _ _ _ => .ok []
    | .dir name accessible entries =>
      .ok (if accessible then scanRemoteEntries name entries [] else [])
  else .error "No device connected"

/-! ## Evaluation lemmas for the rating conversions -/

theorem ratingTo255_natCast (n : ℕ) :
    ratingTo255 (n : ℚ) = popmMapping.get? (min 5 n) := by
  rw [ratingTo255_eval (round_natCast n)]
  congr 1
  omega

theorem ratingTo255_intCast (z : ℤ) :
    ratingTo255 (z : ℚ) = popmMapping.get? (min 5 (max 0 z)).toNat :=
  ratingTo255_eval (round_intCast z)

theorem parseRating_b0 : parseRating (some ((0 : ℕ) : ℚ)) = 0 := by
  simp only [parseRating]
  rw [if_pos (by norm_num)]
  exact round_eq_of (by norm_num) (by norm_num)

theorem parseRating_b1 : parseRating (some ((1 : ℕ) : ℚ)) = 5 := by
  simp only [parseRating]
  rw [if_pos (by norm_num)]
  exact round_eq_of (by norm_num) (by norm_num)

theorem parseRating_b64 : parseRating (some ((64 : ℕ) : ℚ)) = 1 := by
  simp only [parseRating]
  rw [if_neg (by norm_num), if_neg (by norm_num)]
  exact round_eq_of (by norm_num) (by norm_num)

theorem parseRating_b128 : parseRating (some ((128 : ℕ) : ℚ)) = 3 := by
  simp only [parseRating]
  rw [if_neg (by norm_num), if_neg (by norm_num)]
  exact round_eq_of (by norm_num) (by norm_num)

theorem parseRating_b196 : parseRating (some ((196 : ℕ) : ℚ)) = 4 := by
  simp only [parseRating]
  rw [if_neg (by norm_num), if_neg (by norm_num)]
  exact round_eq_of (by norm_num) (by norm_num)

theorem parseRating_b255 : parseRating (some ((255 : ℕ) : ℚ)) = 5 := by
  simp only [parseRating]
  rw [if_neg (by norm_num), if_neg (by norm_num)]
  exact round_eq_of (by norm_num) (by norm_num)

/-! ## Concrete sample data used by counterexamples and witnesses -/

/-- A minimal `MusicFile` with a given filename and modification time. -/
def sampleFile (nm : String) (t : Option ℤ) : MusicFile :=
  { id := nm, path := nm, filename := nm, title := "", artist := "", album := "",
    rating := 0, lastMetadataUpdate := t, format := .mp3, size := 0 }

/-- A `MusicFile` with distinct `path` and `filename` (a file inside a
subfolder), for duplicate-filename scenarios. -/
def sampleFileAt (p nm : String) (t : Option ℤ) : MusicFile :=
  { id := p, path := p, filename := nm, title := "", artist := "", album := "",
    rating := 0, lastMetadataUpdate := t, format := .mp3, size := 0 }

/-- Five pairs for the applying-loop witness scenario. -/
def wPair (nm : String) : SyncPair :=
  ⟨sampleFile nm (some 10), sampleFile nm (some 0), .toAndroid⟩

def wPairs : List SyncPair :=
  [wPair "f0.mp3", wPair "f1.mp3", wPair "f2.mp3", wPair "f3.mp3", wPair "f4.mp3"]

/-- A transfer that throws exactly on the pair for `f2.mp3`. -/
def wTransfer (p : SyncPair) : Except String Unit :=
  if p.localFile.filename = "f2.mp3" then .error "boom" else .ok ()

/-- A sync environment with no connected device but a scannable local side. -/
def envNoDevice : SyncEnv :=
  { localPath := some "/music", device := false,
    localScan := .ok [sampleFile "a.mp3" (some 10)],
    androidScan := .error "would not even be invoked" }

/-- A local tree whose root is fine but one subdirectory is unreadable,
flanked by two readable audio files. -/
def badLocalTree : FsNode :=
  .dir "root" true
    [.file "a.mp3" (some (sampleFile "a.mp3" (some 1))),
     .dir "sub" false [],
     .file "b.mp3" (some (sampleFile "b.mp3" (some 2)))]

/-! ## Claim theorems -/

/-- C10: for every real-number input rating, `ratingTo255` clamps its
argument into `0..5` before the table lookup, so the lookup is in bounds
(never JS `undefined`) and the result is one of {0, 1, 64, 128, 196, 255}. -/
theorem C10_ratingTo255_clamped (q : ℚ) :
    0 ≤ ratingIndex q ∧ ratingIndex q ≤ 5 ∧
      (ratingTo255 q = some 0 ∨ ratingTo255 q = some 1 ∨ ratingTo255 q = some 64 ∨
       ratingTo255 q = some 128 ∨ ratingTo255 q = some 196 ∨ ratingTo255 q = some 255) := by
  have h0 : (0 : ℤ) ≤ ratingIndex q := le_min (by norm_num) (le_max_left _ _)
  have h5 : ratingIndex q ≤ 5 := min_le_left _ _
  refine ⟨h0, h5, ?_⟩
  have hk : (ratingIndex q).toNat = 0 ∨ (ratingIndex q).toNat = 1 ∨
      (ratingIndex q).toNat = 2 ∨ (ratingIndex q).toNat = 3 ∨
      (ratingIndex q).toNat = 4 ∨ (ratingIndex q).toNat = 5 := by omega
  unfold ratingTo255
  rcases hk with h | h | h | h | h | h <;> rw [h] <;> decide

/-- C1 counterexample: at canonical rating 1 the round trip is not stable:
`ratingTo255 1 = 1`, but `parseRating 1 = 5` (a POPM byte of 1 is read as a
0–1-normalized rating), so the second conversion yields 255 ≠ 1. -/
theorem C1_counterexample :
    popmRoundTrip ((1 : ℕ) : ℚ) = some 255 ∧ ratingTo255 ((1 : ℕ) : ℚ) = some 1 ∧
      popmRoundTrip ((1 : ℕ) : ℚ) ≠ ratingTo255 ((1 : ℕ) : ℚ) := by
  have hR : ratingTo255 ((1 : ℕ) : ℚ) = some 1 := by rw [ratingTo255_natCast]; decide
  have hT : popmRoundTrip ((1 : ℕ) : ℚ) = some 255 := by
    unfold popmRoundTrip
    rw [hR]
    show ratingTo255 ((parseRating (some ((1 : ℕ) : ℚ)) : ℤ) : ℚ) = some 255
    rw [parseRating_b1, ratingTo255_intCast]
    decide
  refine ⟨hT, hR, ?_⟩
  rw [hT, hR]
  decide

/-- C1 (amended): the round trip
`canonicalToPopm (popmToCanonical (canonicalToPopm r))` is stable for the
canonical ratings 0, 3, 4 and 5, but at r = 1 it yields byte 255 (byte 1 is
parsed as normalized 0–1, giving canonical 5) and at r = 2 it yields byte 1
(byte 64 parses back to canonical 1). -/
theorem C1_roundtrip_amended (r : ℕ) (hr : r ≤ 5) :
    popmRoundTrip (r : ℚ) =
      (if r = 1 then some 255 else if r = 2 then some 1 else ratingTo255 (r : ℚ)) := by
  interval_cases r
  · have hR : ratingTo255 ((0 : ℕ) : ℚ) = some 0 := by rw [ratingTo255_natCast]; decide
    unfold popmRoundTrip
    rw [hR]
    show ratingTo255 ((parseRating (some ((0 : ℕ) : ℚ)) : ℤ) : ℚ) =
      (if (0 : ℕ) = 1 then some 255 else if (0 : ℕ) = 2 then some 1 else some 0)
    rw [parseRating_b0, ratingTo255_intCast]
    decide
  · have hR : ratingTo255 ((1 : ℕ) : ℚ) = some 1 := by rw [ratingTo255_natCast]; decide
    unfold popmRoundTrip
    rw [hR]
    show ratingTo255 ((parseRating (some ((1 : ℕ) : ℚ)) : ℤ) : ℚ) =
      (if (1 : ℕ) = 1 then some 255 else if (1 : ℕ) = 2 then some 1
        else ratingTo255 ((1 : ℕ) : ℚ))
    rw [parseRating_b1, ratingTo255_intCast]
    decide
  · have hR : ratingTo255 ((2 : ℕ) : ℚ) = some 64 := by rw [ratingTo255_natCast]; decide
    unfold popmRoundTrip
    rw [hR]
    show ratingTo255 ((parseRating (some ((64 : ℕ) : ℚ)) : ℤ) : ℚ) =
      (if (2 : ℕ) = 1 then some 255 else if (2 : ℕ) = 2 then some 1
        else ratingTo255 ((2 : ℕ) : ℚ))
    rw [parseRating_b64, ratingTo255_intCast]
    decide
  · have hR : ratingTo255 ((3 : ℕ) : ℚ) = some 128 := by rw [ratingTo255_natCast]; decide
    unfold popmRoundTrip
    rw [hR]
    show ratingTo255 ((parseRating (some ((128 : ℕ) : ℚ)) : ℤ) : ℚ) =
      (if (3 : ℕ) = 1 then some 255 else if (3 : ℕ) = 2 then some 1 else some 128)
    rw [parseRating_b128, ratingTo255_intCast]
    decide
  · have hR : ratingTo255 ((4 : ℕ) : ℚ) = some 196 := by rw [ratingTo255_natCast]; decide
    unfold popmRoundTrip
    rw [hR]
    show ratingTo255 ((parseRating (some ((196 : ℕ) : ℚ)) : ℤ) : ℚ) =
      (if (4 : ℕ) = 1 then some 255 else if (4 : ℕ) = 2 then some 1 else some 196)
    rw [parseRating_b196, ratingTo255_intCast]
    decide
  · have hR : ratingTo255 ((5 : ℕ) : ℚ) = some 255 := by rw [ratingTo255_natCast]; decide
    unfold popmRoundTrip
    rw [hR]
    show ratingTo255 ((parseRating (some ((255 : ℕ) : ℚ)) : ℤ) : ℚ) =
      (if (5 : ℕ) = 1 then some 255 else if (5 : ℕ) = 2 then some 1 else some 255)
    rw [parseRating_b255, ratingTo255_intCast]
    decide

/-- Witness for `C1_roundtrip_amended` at r = 3. -/
theorem C1_roundtrip_amended_witness :
    (3 : ℕ) ≤ 5 ∧
      popmRoundTrip ((3 : ℕ) : ℚ) =
        (if (3 : ℕ) = 1 then some 255 else if (3 : ℕ) = 2 then some 1
          else ratingTo255 ((3 : ℕ) : ℚ)) :=
  ⟨by decide, C1_roundtrip_amended 3 (by decide)⟩

/-- `round` is monotone (via `round_eq` and `Int.floor_mono`). -/
theorem round_le_round {x y : ℚ} (h : x ≤ y) : round x ≤ round y := by
  rw [round_eq, round_eq]
  exact Int.floor_le_floor (by linarith)

/-- Core bound: `parseRating` maps any value in one of the three scales
(hence any value in [0, 255]) into the canonical range [0, 5]. -/
theorem parseRating_bounds (r : Option ℚ)
    (h : ∀ v, r = some v → 0 ≤ v ∧ v ≤ 255) :
    0 ≤ parseRating r ∧ parseRating r ≤ 5 := by
  match r with
  | none => simp [parseRating]
  | some v =>
    obtain ⟨hv0, hv255⟩ := h v rfl
    simp only [parseRating]
    split
    · -- v ≤ 1: round (v * 5), with 0 ≤ v * 5 ≤ 5
      rename_i hv1
      have hlo : round (0 : ℚ) ≤ round (v * 5) := round_le_round (by nlinarith)
      have hhi : round (v * 5) ≤ round (5 : ℚ) := round_le_round (by nlinarith)
      rw [round_zero] at hlo
      rw [show round ((5 : ℚ)) = 5 from round_ofNat 5] at hhi
      exact ⟨hlo, hhi⟩
    · split
      · -- 1 < v ≤ 5: round v
        rename_i hv1 hv5
        have hlo : round (0 : ℚ) ≤ round v := round_le_round (by linarith)
        have hhi : round v ≤ round (5 : ℚ) := round_le_round hv5
        rw [round_zero] at hlo
        rw [show round ((5 : ℚ)) = 5 from round_ofNat 5] at hhi
        exact ⟨hlo, hhi⟩
      · -- v > 5: round (v / 255 * 5), with 0 ≤ v / 255 * 5 ≤ 5
        rename_i hv1 hv5
        have harg : v / 255 * 5 ≤ 5 := by
          rw [div_mul_eq_mul_div, div_le_iff₀ (by norm_num : (0 : ℚ) < 255)]
          linarith
        have harg0 : 0 ≤ v / 255 * 5 := by positivity
        have hlo : round (0 : ℚ) ≤ round (v / 255 * 5) := round_le_round harg0
        have hhi : round (v / 255 * 5) ≤ round (5 : ℚ) := round_le_round harg
        rw [round_zero] at hlo
        rw [show round ((5 : ℚ)) = 5 from round_ofNat 5] at hhi
        exact ⟨hlo, hhi⟩

/-- C9: whenever `readMetadata` returns a record, and every rating value the
tag reader reported lies in one of the three possible scales (so in
[0, 255]), the record's `rating` is an integer in [0, 5]. -/
theorem C9_read_rating_in_range (filePath : String) (stats : Stats)
    (parsed : Option ParsedCommon) (file : MusicFile)
    (hscale : ∀ common, parsed = some common →
      ∀ r ∈ common.rating, ∀ v, r = some v → 0 ≤ v ∧ v ≤ 255)
    (hread : readMetadata filePath stats parsed = .ok file) :
    0 ≤ file.rating ∧ file.rating ≤ 5 := by
  unfold readMetadata at hread
  cases hfmt : getAudioFormat filePath with
  | none => rw [hfmt] at hread; cases hread
  | some format =>
    rw [hfmt] at hread
    cases hp : parsed with
    | none =>
      rw [hp] at hread
      have hfile := Except.ok.inj hread
      rw [← hfile]
      exact ⟨le_refl 0, by norm_num⟩
    | some common =>
      rw [hp] at hread
      obtain ⟨ct, ca, cal, cr⟩ := common
      cases cr with
      | nil =>
        have hfile := Except.ok.inj hread
        rw [← hfile]
        exact ⟨le_refl 0, by norm_num⟩
      | cons r0 rs =>
        have hfile := Except.ok.inj hread
        rw [← hfile]
        exact parseRating_bounds r0
          (fun v hv => hscale ⟨ct, ca, cal, r0 :: rs⟩ hp r0 (List.mem_cons_self _ _) v hv)

/-- Witness for `C9_read_rating_in_range`: a parse result whose first
rating entry carries no value. -/
theorem C9_read_rating_in_range_witness :
    readMetadata "a.mp3" ⟨100, 7⟩ (some ⟨some "T", some "A", some "B", [none]⟩) =
        .ok { id := "a.mp3", path := "a.mp3", filename := "a.mp3", title := "T",
              artist := "A", album := "B", rating := 0,
              lastMetadataUpdate := some 100, format := .mp3, size := 7 } ∧
      (0 : ℤ) ≤ 0 ∧ (0 : ℤ) ≤ 5 :=
  ⟨by rfl,
    C9_read_rating_in_range "a.mp3" ⟨100, 7⟩ (some ⟨some "T", some "A", some "B", [none]⟩)
      { id := "a.mp3", path := "a.mp3", filename := "a.mp3", title := "T",
        artist := "A", album := "B", rating := 0,
        lastMetadataUpdate := some 100, format := .mp3, size := 7 }
      (by intro common hc r hr v hv; cases hc; simp at hr; rw [hr] at hv; cases hv)
      (by rfl)⟩

/-- C6: for every matched pair, with `L` the local and `R` the remote
modification time (epoch-zero when null), the direction is `toAndroid`
when `L > R`, `toLocal` when `R > L`, and `same` when `L = R`. -/
theorem C6_direction_rule (localFiles android : List MusicFile) (pair : SyncPair)
    (hmem : pair ∈ findMatches localFiles android) :
    (timeOrZero pair.localFile.lastMetadataUpdate >
        timeOrZero pair.android.lastMetadataUpdate → pair.direction = .toAndroid) ∧
    (timeOrZero pair.android.lastMetadataUpdate >
        timeOrZero pair.localFile.lastMetadataUpdate → pair.direction = .toLocal) ∧
    (timeOrZero pair.localFile.lastMetadataUpdate =
        timeOrZero pair.android.lastMetadataUpdate → pair.direction = .same) := by
  obtain ⟨lf, -, hone⟩ := List.mem_filterMap.mp hmem
  unfold matchOne at hone
  cases haf : mapGet (buildAndroidIndex android) (strToLower lf.filename) with
  | none => rw [haf] at hone; cases hone
  | some af =>
    rw [haf] at hone
    have hpair := (Option.some.inj hone).symm
    subst hpair
    simp only []
    unfold computeDirection
    refine ⟨?_, ?_, ?_⟩ <;> intro h
    · rw [if_pos h]
    · rw [if_neg (by omega), if_pos h]
    · rw [if_neg (by omega), if_neg (by omega)]

/-- Witness for `C6_direction_rule`: a newer local file pairs as `toAndroid`. -/
theorem C6_direction_rule_witness :
    (⟨sampleFile "a.mp3" (some 10), sampleFile "a.mp3" (some 0), .toAndroid⟩ : SyncPair) ∈
        findMatches [sampleFile "a.mp3" (some 10)] [sampleFile "a.mp3" (some 0)] ∧
      ((10 : ℤ) > 0 →
        (⟨sampleFile "a.mp3" (some 10), sampleFile "a.mp3" (some 0), .toAndroid⟩ :
          SyncPair).direction = .toAndroid) :=
  ⟨by decide,
    ((C6_direction_rule [sampleFile "a.mp3" (some 10)] [sampleFile "a.mp3" (some 0)]
      ⟨sampleFile "a.mp3" (some 10), sampleFile "a.mp3" (some 0), .toAndroid⟩
      (by decide)).1)⟩

/-! ### Map-semantics lemmas for the android index (C3) -/

theorem mapGet_mapSet_self (m : List (String × MusicFile)) (k : String) (v : MusicFile) :
    mapGet (mapSet m k v) k = some v := by
  unfold mapSet
  by_cases hany : m.any (fun e => e.1 = k) = true
  · rw [if_pos hany]
    unfold mapGet
    induction m with
    | nil => cases hany
    | cons e tl ih =>
      by_cases he : e.1 = k
      · rw [List.map_cons, if_pos he, List.find?_cons_of_pos _ (by simp)]
        rfl
      · rw [List.map_cons, if_neg he, List.find?_cons_of_neg _ (by simp [he])]
        have htl : tl.any (fun e => e.1 = k) = true := by
          rcases List.any_eq_true.mp hany with ⟨x, hx, hpx⟩
          rcases List.mem_cons.mp hx with rfl | hx2
          · exact absurd (of_decide_eq_true hpx) he
          · exact List.any_eq_true.mpr ⟨x, hx2, hpx⟩
        exact ih htl
  · rw [if_neg hany]
    unfold mapGet
    rw [List.find?_append]
    have hnone : m.find? (fun e => e.1 = k) = none :=
      List.find?_eq_none.mpr (List.any_eq_false.mp (Bool.not_eq_true _ ▸ hany))
    rw [hnone, Option.none_or, List.find?_cons_of_pos _ (by simp)]
    rfl

theorem mapGet_mapSet_ne (m : List (String × MusicFile)) (k k' : String) (v : MusicFile)
    (h : k' ≠ k) : mapGet (mapSet m k' v) k = mapGet m k := by
  unfold mapSet
  by_cases hany : m.any (fun e => e.1 = k') = true
  · rw [if_pos hany]
    unfold mapGet
    clear hany
    induction m with
    | nil => rfl
    | cons e tl ih =>
      by_cases he : e.1 = k'
      · rw [List.map_cons, if_pos he,
          List.find?_cons_of_neg _ (by simp [h]),
          List.find?_cons_of_neg _
            (by simp only [decide_eq_true_eq]; rw [he]; exact h)]
        exact ih
      · rw [List.map_cons, if_neg he]
        by_cases hek : e.1 = k
        · rw [List.find?_cons_of_pos _ (by simp [hek]), List.find?_cons_of_pos _ (by simp [hek])]
        · rw [List.find?_cons_of_neg _ (by simp [hek]), List.find?_cons_of_neg _ (by simp [hek])]
          exact ih
  · rw [if_neg hany]
    unfold mapGet
    rw [List.find?_append, List.find?_cons_of_neg _ (by simp [h]),
      show (List.find? (fun e => e.1 = k) [] : Option (String × MusicFile)) = none from rfl,
      Option.or_none]

/-- The android index resolves a key to the **last** android record (in scan
order) whose lowercased filename equals the key: later `Map.set` calls
overwrite earlier ones. -/
theorem foldl_mapSet_get (android : List MusicFile) (m : List (String × MusicFile))
    (k : String) :
    mapGet (android.foldl (fun m f => mapSet m (strToLower f.filename) f) m) k =
      (android.reverse.find? (fun f => strToLower f.filename = k)).or (mapGet m k) := by
  induction android generalizing m with
  | nil => simp
  | cons f rest ih =>
    rw [List.foldl_cons, ih, List.reverse_cons, List.find?_append]
    cases hfind : rest.reverse.find? (fun f => strToLower f.filename = k) with
    | some g => rfl
    | none =>
      by_cases hf : strToLower f.filename = k
      · rw [List.find?_cons_of_pos _ (by simp [hf]), hf, mapGet_mapSet_self]
        rfl
      · rw [List.find?_cons_of_neg _ (by simp [hf]), mapGet_mapSet_ne _ _ _ _ hf]
        rfl

/-- C3 counterexample: with two android files sharing the filename
`x.mp3` in different folders, the local `x.mp3` is paired with the
**second** android record in scan order, not the first. -/
theorem C3_counterexample :
    findMatches [sampleFileAt "L/x.mp3" "x.mp3" none]
        [sampleFileAt "A1/x.mp3" "x.mp3" none, sampleFileAt "A2/x.mp3" "x.mp3" none] =
      [⟨sampleFileAt "L/x.mp3" "x.mp3" none, sampleFileAt "A2/x.mp3" "x.mp3" none, .same⟩] ∧
      sampleFileAt "A2/x.mp3" "x.mp3" none ≠ sampleFileAt "A1/x.mp3" "x.mp3" none := by
  constructor
  · decide
  · decide

/-- C3 (amended): when several android records share a lowercased filename,
`findMatches` pairs a matching local record with exactly one of them — the
**last** one encountered in android scan order (JS `Map.set` overwrites). -/
theorem C3_last_duplicate_wins (localFiles android : List MusicFile) (pair : SyncPair)
    (hmem : pair ∈ findMatches localFiles android) :
    android.reverse.find?
        (fun f => strToLower f.filename = strToLower pair.localFile.filename) =
      some pair.android := by
  obtain ⟨lf, -, hone⟩ := List.mem_filterMap.mp hmem
  unfold matchOne at hone
  cases haf : mapGet (buildAndroidIndex android) (strToLower lf.filename) with
  | none => rw [haf] at hone; cases hone
  | some af =>
    rw [haf] at hone
    have hpair := (Option.some.inj hone).symm
    subst hpair
    unfold buildAndroidIndex at haf
    rw [foldl_mapSet_get] at haf
    cases hfind : android.reverse.find?
        (fun f => strToLower f.filename = strToLower lf.filename) with
    | none =>
      rw [hfind] at haf
      have hbad : (none : Option MusicFile) = some af := haf
      cases hbad
    | some g =>
      rw [hfind] at haf
      have hgood : (some g : Option MusicFile) = some af := haf
      exact hgood

/-- Witness for `C3_last_duplicate_wins` on the duplicate scenario. -/
theorem C3_last_duplicate_wins_witness :
    (⟨sampleFileAt "L/x.mp3" "x.mp3" none, sampleFileAt "A2/x.mp3" "x.mp3" none, .same⟩ :
        SyncPair) ∈
      findMatches [sampleFileAt "L/x.mp3" "x.mp3" none]
        [sampleFileAt "A1/x.mp3" "x.mp3" none, sampleFileAt "A2/x.mp3" "x.mp3" none] ∧
    [sampleFileAt "A1/x.mp3" "x.mp3" none, sampleFileAt "A2/x.mp3" "x.mp3" none].reverse.find?
        (fun f => strToLower f.filename =
          strToLower (⟨sampleFileAt "L/x.mp3" "x.mp3" none,
            sampleFileAt "A2/x.mp3" "x.mp3" none, .same⟩ : SyncPair).localFile.filename) =
      some (sampleFileAt "A2/x.mp3" "x.mp3" none) :=
  ⟨by decide,
    C3_last_duplicate_wins [sampleFileAt "L/x.mp3" "x.mp3" none]
      [sampleFileAt "A1/x.mp3" "x.mp3" none, sampleFileAt "A2/x.mp3" "x.mp3" none]
      ⟨sampleFileAt "L/x.mp3" "x.mp3" none, sampleFileAt "A2/x.mp3" "x.mp3" none, .same⟩
      (by decide)⟩

/-- C7: during the Applying phase, the attempted transfers are exactly the
initial prefix of the queue up to and including the first failing pair: the
applied pairs are the successful prefix (not rolled back), the failing pair
is the last one attempted, and no pair after it is ever attempted. -/
theorem C7_first_error_aborts (transfer : SyncPair → Except String Unit)
    (pairs : List SyncPair) (p : SyncPair) (e : String)
    (hfail : (runApply transfer pairs).failed = some (p, e)) :
    (runApply transfer pairs).attempted = (runApply transfer pairs).applied ++ [p] ∧
    (runApply transfer pairs).applied =
      pairs.takeWhile (fun q => (transfer q).isOk) ∧
    transfer p = .error e ∧
    (runApply transfer pairs).attempted =
      pairs.take ((runApply transfer pairs).applied.length + 1) := by
  induction pairs with
  | nil => cases hfail
  | cons p0 rest ih =>
    cases ht : transfer p0 with
    | error e0 =>
      have hrun : runApply transfer (p0 :: rest) = ⟨[p0], [], some (p0, e0)⟩ := by
        conv_lhs => rw [runApply]
        rw [ht]
      rw [hrun] at hfail ⊢
      obtain ⟨rfl, rfl⟩ : p0 = p ∧ e0 = e := by
        have := Option.some.inj hfail
        exact ⟨congrArg Prod.fst this, congrArg Prod.snd this⟩
      refine ⟨rfl, ?_, ht, ?_⟩
      · rw [List.takeWhile_cons, ht]
        rfl
      · rfl
    | ok u =>
      have hrun : runApply transfer (p0 :: rest) =
          ⟨p0 :: (runApply transfer rest).attempted,
           p0 :: (runApply transfer rest).applied,
           (runApply transfer rest).failed⟩ := by
        conv_lhs => rw [runApply]
        rw [ht]
      rw [hrun] at hfail ⊢
      obtain ⟨h1, h2, h3, h4⟩ := ih hfail
      refine ⟨?_, ?_, h3, ?_⟩
      · simp only [h1, List.cons_append]
      · rw [List.takeWhile_cons, ht]
        rw [if_pos (show (Except.ok u : Except String Unit).isOk = true from rfl)]
        rw [h2]
      · simp only [List.length_cons, List.take_succ_cons, h4]

/-- Witness for `C7_first_error_aborts`: five pairs, the third throws;
pairs 0–1 stay applied, pair 2 is the last attempted, pairs 3–4 untouched. -/
theorem C7_first_error_aborts_witness :
    (runApply wTransfer wPairs).failed = some (wPair "f2.mp3", "boom") ∧
      ((runApply wTransfer wPairs).attempted =
          (runApply wTransfer wPairs).applied ++ [wPair "f2.mp3"] ∧
        (runApply wTransfer wPairs).applied =
          wPairs.takeWhile (fun q => (wTransfer q).isOk) ∧
        wTransfer (wPair "f2.mp3") = .error "boom" ∧
        (runApply wTransfer wPairs).attempted =
          wPairs.take ((runApply wTransfer wPairs).applied.length + 1)) :=
  ⟨by decide, C7_first_error_aborts wTransfer wPairs (wPair "f2.mp3") "boom" (by decide)⟩

/-- Matching against an empty android side yields no pairs. -/
theorem findMatches_nil_android (lfs : List MusicFile) : findMatches lfs [] = [] := by
  unfold findMatches
  exact List.filterMap_eq_nil_iff.mpr (fun lf _ => rfl)

/-- C2 counterexample: with no remote device connected, `handleSync` does
not fail — `refreshBothSides` skips the android scan (even one that would
throw) and returns the android side as an empty list, and the run ends as
"no matching songs" with idle status, not as an error terminal. -/
theorem C2_counterexample :
    refreshBothSides envNoDevice =
        (some ([sampleFile "a.mp3" (some 10)], []),
          ⟨0, 0, "Refreshing...", "syncing", none⟩) ∧
      handleSync envNoDevice true (fun _ => .ok ()) = .noMatches := by
  constructor
  · rfl
  · rfl

/-- C2 (amended): a scan that *throws* on an available side aborts the run
before matching, with error progress and no transfer attempted; but an
*unavailable* side (no device connected, or no local folder chosen) is
skipped and treated as an empty list, so the run proceeds to matching,
finds no pairs, and ends as `noMatches` — it does not enter the error
terminal.  In either outcome no transfer is attempted. -/
theorem C2_scan_failure_vs_no_device (env : SyncEnv) (confirmed : Bool)
    (transfer : SyncPair → Except String Unit) :
    (∀ p e, env.localPath = some p → env.localScan = .error e →
      handleSync env confirmed transfer = .refreshFailed ⟨0, 0, "", "error", some e⟩) ∧
    (∀ e, env.device = true → env.androidScan = .error e →
      (env.localPath = none ∨ ∃ lfs, env.localScan = .ok lfs) →
      handleSync env confirmed transfer = .refreshFailed ⟨0, 0, "", "error", some e⟩) ∧
    (env.device = false →
      (env.localPath = none ∨ ∃ lfs, env.localScan = .ok lfs) →
      handleSync env confirmed transfer = .noMatches) ∧
    (∀ prog, transfersAttempted (.refreshFailed prog) = []) ∧
    transfersAttempted .noMatches = [] := by
  obtain ⟨lp, dev, ls, ascan⟩ := env
  refine ⟨?_, ?_, ?_, fun _ => rfl, rfl⟩
  · intro p e hp he
    subst hp
    subst he
    rfl
  · intro e hdev hascan hlocal
    subst hdev
    subst hascan
    rcases hlocal with hnone | ⟨lfs, hok⟩
    · subst hnone
      rfl
    · subst hok
      cases lp with
      | none => rfl
      | some p => rfl
  · intro hdev hlocal
    subst hdev
    rcases hlocal with hnone | ⟨lfs, hok⟩
    · subst hnone
      rfl
    · subst hok
      cases lp with
      | none => rfl
      | some p =>
        have hr : refreshBothSides ⟨some p, false, .ok lfs, ascan⟩ =
            (some (lfs, []), ⟨0, 0, "Refreshing...", "syncing", none⟩) := rfl
        unfold handleSync
        rw [hr]
        simp [findMatches_nil_android]

/-- Witness for `C2_scan_failure_vs_no_device`: the no-device environment. -/
theorem C2_scan_failure_vs_no_device_witness :
    envNoDevice.device = false ∧
      (envNoDevice.localPath = none ∨ ∃ lfs, envNoDevice.localScan = .ok lfs) ∧
      handleSync envNoDevice true (fun _ => .ok ()) = .noMatches :=
  ⟨rfl, Or.inr ⟨[sampleFile "a.mp3" (some 10)], rfl⟩,
    (C2_scan_failure_vs_no_device envNoDevice true (fun _ => .ok ())).2.2.1 rfl
      (Or.inr ⟨[sampleFile "a.mp3" (some 10)], rfl⟩)⟩

/-! ### Filesystem-set lemmas for staging (C4) -/

theorem mem_addFile (fs : LocalFS) (p : String) : p ∈ addFile fs p := by
  unfold addFile
  split
  · rename_i h
    simpa using h
  · exact List.mem_append_right _ (List.mem_singleton_self p)

theorem not_mem_removeFile (fs : LocalFS) (p : String) : p ∉ removeFile fs p := by
  unfold removeFile
  intro hmem
  have := (List.mem_filter.mp hmem).2
  simp at this

/-- C4 counterexample: a fully successful per-pair `sync-metadata` transfer
returns with its temp file still present on the local filesystem. -/
theorem C4_counterexample :
    (syncMetadataTransfer ⟨true, true, true⟩ [] "/tmp/x.mp3").2 = none ∧
      "/tmp/x.mp3" ∈ (syncMetadataTransfer ⟨true, true, true⟩ [] "/tmp/x.mp3").1 := by
  constructor
  · rfl
  · decide

/-- C4 (amended): the `update-android-metadata` (`writeRemote`) handler
leaves no temp file behind whether it succeeds or throws at any staging
step; but the per-pair transfers of the `sync-metadata` handler never
delete their temp file — once the pull has succeeded the temp file is
still present when the handler returns, on success and on error alike. -/
theorem C4_writeRemote_cleanup_sync_leaks (run : StagingRun) (fs : LocalFS)
    (tempPath : String) :
    tempPath ∉ (updateAndroidMetadata run fs tempPath).1 ∧
      (run.pullOk = true → tempPath ∈ (syncMetadataTransfer run fs tempPath).1) := by
  obtain ⟨pk, wk, hk⟩ := run
  constructor
  · cases pk <;> cases wk <;> cases hk <;> exact not_mem_removeFile _ _
  · intro hp
    cases pk with
    | false => cases hp
    | true => cases wk <;> cases hk <;> exact mem_addFile _ _

/-- Witness for `C4_writeRemote_cleanup_sync_leaks` on an all-success run. -/
theorem C4_writeRemote_cleanup_sync_leaks_witness :
    "/tmp/y.mp3" ∉ (updateAndroidMetadata ⟨true, true, true⟩ [] "/tmp/y.mp3").1 ∧
      "/tmp/y.mp3" ∈ (syncMetadataTransfer ⟨true, true, true⟩ [] "/tmp/y.mp3").1 :=
  ⟨(C4_writeRemote_cleanup_sync_leaks ⟨true, true, true⟩ [] "/tmp/y.mp3").1,
    (C4_writeRemote_cleanup_sync_leaks ⟨true, true, true⟩ [] "/tmp/y.mp3").2 rfl⟩

/-! ### Equation lemmas for the local scan (compiled by well-founded
recursion, so unfolding goes through `eq_def`). -/

theorem scanLocalEntries_nil (d : String) (acc : List MusicFile) :
    scanLocalEntries d [] acc = .ok acc := by
  rw [scanLocalEntries.eq_def]

theorem scanLocalEntries_file (d nm : String) (rec : Option MusicFile)
    (tl : List FsNode) (acc : List MusicFile) :
    scanLocalEntries d (FsNode.file nm rec :: tl) acc =
      scanLocalEntries d tl
        (if isSupportedAudio nm then
          match rec with
          | some m => acc ++ [m]
          | none => acc
        else acc) := by
  rw [scanLocalEntries.eq_def]

theorem scanLocalEntries_dir (d n : String) (a : Bool) (es tl : List FsNode)
    (acc : List MusicFile) :
    scanLocalEntries d (FsNode.dir n a es :: tl) acc =
      (if a then
        match scanLocalEntries (joinPath d n) es acc with
        | .error e => .error e
        | .ok acc2 => scanLocalEntries d tl acc2
      else .error ("EACCES: " ++ joinPath d n)) := by
  rw [scanLocalEntries.eq_def]

/-- C5 counterexample: on the local side one unreadable subdirectory aborts
the whole scan with an error — the records of `a.mp3` and `b.mp3` in other
directories are not returned. -/
theorem C5_counterexample :
    scanFolderLocal badLocalTree = .error "EACCES: root/sub" := by
  show scanLocalEntries "root"
      [FsNode.file "a.mp3" (some (sampleFile "a.mp3" (some 1))),
       FsNode.dir "sub" false [],
       FsNode.file "b.mp3" (some (sampleFile "b.mp3" (some 2)))] [] =
    .error "EACCES: root/sub"
  rw [scanLocalEntries_file, scanLocalEntries_dir,
    if_neg (show ¬(false = true) from by simp)]
  rfl

/-- C5 (amended): on the local side an inaccessible root is a hard error,
but an inaccessible subdirectory also aborts the whole scan with that error
(no best-effort skipping); on the remote side an inaccessible directory —
the root included — is silently skipped yielding an empty result, and the
only hard scan failure is having no device connected. -/
theorem C5_scan_error_behaviour :
    (∀ name entries, scanFolderLocal (.dir name false entries) =
      .error ("EACCES: " ++ name)) ∧
    (∀ dirPath pre m es post acc acc',
      scanLocalEntries dirPath pre acc = .ok acc' →
      scanLocalEntries dirPath (pre ++ FsNode.dir m false es :: post) acc =
        .error ("EACCES: " ++ joinPath dirPath m)) ∧
    (∀ name entries, scanFolderRemote true (.dir name false entries) = .ok []) ∧
    (∀ root, scanFolderRemote false root = .error "No device connected") := by
  refine ⟨fun name entries => rfl, ?_, fun name entries => rfl, fun root => rfl⟩
  intro dirPath pre m es post
  induction pre with
  | nil =>
    intro acc acc' h
    rw [List.nil_append, scanLocalEntries_dir,
      if_neg (show ¬(false = true) from by simp)]
  | cons x tl ih =>
    intro acc acc' h
    cases x with
    | file nm rec =>
      rw [List.cons_append, scanLocalEntries_file]
      rw [scanLocalEntries_file] at h
      exact ih _ _ h
    | dir n a es2 =>
      rw [List.cons_append, scanLocalEntries_dir]
      rw [scanLocalEntries_dir] at h
      cases a with
      | false =>
        rw [if_neg (show ¬(false = true) from by simp)] at h
        exact absurd h (by simp)
      | true =>
        rw [if_pos rfl] at h ⊢
        cases hsub : scanLocalEntries (joinPath dirPath n) es2 acc with
        | error e2 =>
          rw [hsub] at h
          exact absurd
            (show (Except.error e2 : Except String (List MusicFile)) = .ok acc' from h)
            (by simp)
        | ok acc2 =>
          rw [hsub] at h
          exact ih _ _ h

/-- Witness for `C5_scan_error_behaviour`: the subdirectory-abort clause on
a concrete prefix that scans successfully. -/
theorem C5_scan_error_behaviour_witness :
    scanLocalEntries "root" [FsNode.file "a.mp3" (some (sampleFile "a.mp3" (some 1)))] [] =
        .ok [sampleFile "a.mp3" (some 1)] ∧
      scanLocalEntries "root"
          ([FsNode.file "a.mp3" (some (sampleFile "a.mp3" (some 1)))] ++
            FsNode.dir "sub" false [] ::
              [FsNode.file "b.mp3" (some (sampleFile "b.mp3" (some 2)))]) [] =
        .error ("EACCES: " ++ joinPath "root" "sub") :=
  ⟨by rw [scanLocalEntries_file, scanLocalEntries_nil]; rfl,
    C5_scan_error_behaviour.2.1 "root"
      [FsNode.file "a.mp3" (some (sampleFile "a.mp3" (some 1)))] "sub" []
      [FsNode.file "b.mp3" (some (sampleFile "b.mp3" (some 2)))] []
      [sampleFile "a.mp3" (some 1)]
      (by rw [scanLocalEntries_file, scanLocalEntries_nil]; rfl)⟩

/-- C8 counterexample: on a tag-parse failure the fallback record's title
is the basename **without** its extension, which differs from the record's
`filename` (base name including extension): the claim's "filename as
title" does not hold. -/
theorem C8_counterexample :
    readMetadata "a.mp3" ⟨100, 7⟩ none =
        .ok { id := "a.mp3", path := "a.mp3", filename := "a.mp3", title := "a",
              artist := "", album := "", rating := 0,
              lastMetadataUpdate := some 100, format := .mp3, size := 7 } ∧
      ("a" : String) ≠ "a.mp3" := by
  constructor
  · rfl
  · decide

/-- C8 (amended): when tag parsing fails on a recognized audio file,
`readMetadata` does not raise; it returns a record derived from the
filesystem stat, with the basename **stripped of its extension** as title,
empty artist and album, and rating 0. -/
theorem C8_parse_failure_fallback (filePath : String) (stats : Stats)
    (fmt : AudioFormat) (hfmt : getAudioFormat filePath = some fmt) :
    readMetadata filePath stats none =
      .ok { id := filePath, path := filePath, filename := basename filePath,
            title := basenameNoExt filePath, artist := "", album := "",
            rating := 0, lastMetadataUpdate := some stats.mtimeMs,
            format := fmt, size := stats.size } := by
  unfold readMetadata
  rw [hfmt]

/-- Witness for `C8_parse_failure_fallback` at `a.mp3`. -/
theorem C8_parse_failure_fallback_witness :
    getAudioFormat "a.mp3" = some .mp3 ∧
      readMetadata "a.mp3" ⟨100, 7⟩ none =
        .ok { id := "a.mp3", path := "a.mp3", filename := basename "a.mp3",
              title := basenameNoExt "a.mp3", artist := "", album := "",
              rating := 0, lastMetadataUpdate := some 100,
              format := .mp3, size := 7 } :=
  ⟨rfl, C8_parse_failure_fallback "a.mp3" ⟨100, 7⟩ .mp3 rfl⟩

end Msync
